import Mathlib

/-!
# Verification of the Bayesian belief-updating experiment core

Shallow embedding of the experiment state machine of
`bayesian_experiment.py` (desktop, pygame) and `app.py` (Flask variant).

Randomness is modelled by passing the underlying uniform draws explicitly:
each call of Python's `random.random()` becomes an explicit rational
argument `u`, each `random.sample` becomes explicit index arguments, and so
on.  User interaction is modelled as an explicit list of events consumed by
the pygame event loop.
-/

namespace BayesianExperiment

/-- Outcome of one ball draw: `'black'` or `'white'` in the Python source. -/
inductive Color where
  | black
  | white
deriving DecidableEq, Repr

/-- Python's `int()` applied to a rational: truncation toward zero. -/
def pyInt (q : ℚ) : ℤ := if 0 ≤ q then ⌊q⌋ else ⌈q⌉

/-- `Urn`: an urn with a probability of drawing a black ball
(`bayesian_experiment.py`, class `Urn`). -/
structure Urn where
  probability : ℚ
  black_balls : ℤ
  white_balls : ℤ
deriving DecidableEq, Repr

/-- `Urn.__init__`: stores the probability and derives the ball counts.
The Python constructor contains no validation and no `raise`. -/
def Urn.init (probability : ℚ) : Urn :=
  { probability := probability,
      black_balls := pyInt (probability * 100),
      white_balls := 100 - pyInt (probability * 100) }

/-- `Urn.__init__` lifted to `Except`, recording its failure behaviour:
the Python constructor has no failure path, so it always succeeds. -/
def Urn.initE (probability : ℚ) : Except String Urn :=
  Except.ok (Urn.init probability)

/-- `Urn.draw_ball`: black iff the uniform draw `u` is below the
probability (`random.random() < self.probability`). -/
def Urn.draw_ball (urn : Urn) (u : ℚ) : Color :=
  if u < urn.probability then Color.black else Color.white

/-- `InputBox.get_value`: the parsed numeric value when it lies in the
inclusive range `[min_val, max_val]`, otherwise `None`. -/
def get_value (min_val max_val v : ℚ) : Option ℚ :=
  if min_val ≤ v ∧ v ≤ max_val then some v else none

/-- The dictionary returned by `MainExperimentStage.run` and handed to the
data collector / fed back as `previous_data`. -/
structure StageData where
  samples : List Color
  estimates : List ℚ
  confidences : List ℚ
  true_probability : ℚ
deriving DecidableEq, Repr

/-- `MainExperimentStage`: the state of one main-experiment jar stage. -/
structure MainExperimentStage where
  jar_color : String
  num_trials : ℕ
  urn : Urn
  samples : List Color
  estimates : List ℚ
  confidences : List ℚ
  current_trial : ℕ
  waiting_for_draw : Bool
  waiting_for_estimate : Bool
  need_initial_estimate : Bool
deriving DecidableEq, Repr

/-- `MainExperimentStage.__init__`.  When `jar_probability` is `None` the
Python code draws `random.random()`; that draw is the explicit argument
`random_probability`.  With `previous_data` given, the sample history and
counters are restored from it (`self.samples = previous_data['samples']`,
`self.current_trial = len(self.samples)`), otherwise they start empty.
`need_initial_estimate = (current_trial == 0 and not previous_data)`. -/
def MainExperimentStage.init (jar_color : String) (num_trials : ℕ)
    (jar_probability : Option ℚ) (previous_data : Option StageData)
    (random_probability : ℚ) : MainExperimentStage :=
  let urn := match jar_probability with
    | none => Urn.init random_probability
    | some p => Urn.init p
  match previous_data with
  | some pd =>
    { jar_color := jar_color, num_trials := num_trials, urn := urn,
        samples := pd.samples, estimates := pd.estimates,
        confidences := pd.confidences,
        current_trial := pd.samples.length,
        waiting_for_draw := true, waiting_for_estimate := false,
        need_initial_estimate := false }
  | none =>
    { jar_color := jar_color, num_trials := num_trials, urn := urn,
        samples := [], estimates := [], confidences := [],
        current_trial := 0,
        waiting_for_draw := true, waiting_for_estimate := false,
        need_initial_estimate := true }

/-- `MainExperimentStage._draw_ball`: draws from the urn with uniform draw
`u`, appends the outcome to `samples`, and flips the waiting flags. -/
def MainExperimentStage.draw_ball (st : MainExperimentStage) (u : ℚ) :
    MainExperimentStage :=
  { st with
      samples := st.samples ++ [st.urn.draw_ball u],
      waiting_for_draw := false,
      waiting_for_estimate := true }

/-- `MainExperimentStage._submit_response`: if both input boxes hold valid
values (estimate in `[0,100]`, confidence in `[0,10]`), append them and
advance `current_trial`; otherwise do nothing (the Python code silently
returns without appending or raising). -/
def MainExperimentStage.submit_response (st : MainExperimentStage)
    (e c : ℚ) : MainExperimentStage :=
  match get_value 0 100 e, get_value 0 10 c with
  | some estimate, some confidence =>
    { st with
        estimates := st.estimates ++ [estimate],
        confidences := st.confidences ++ [confidence],
        current_trial := st.current_trial + 1,
        waiting_for_estimate := false,
        waiting_for_draw := true }
  | _, _ => st

/-- `MainExperimentStage._get_initial_estimate`: the loop exits once a
valid estimate is entered and appends it to `self.estimates` — the same
list that later holds the per-trial estimates.  An invalid value leaves
the state unchanged (the loop keeps waiting). -/
def MainExperimentStage.get_initial_estimate (st : MainExperimentStage)
    (e : ℚ) : MainExperimentStage :=
  match get_value 0 100 e with
  | some estimate => { st with estimates := st.estimates ++ [estimate] }
  | none => st

/-- One user event inside the `run` loop: spacebar (with the uniform draw
it triggers) or the submit button (with the entered values). -/
inductive Event where
  | space (u : ℚ)
  | submit (e c : ℚ)
deriving DecidableEq, Repr

/-- One iteration of the event handling in `MainExperimentStage.run`:
spacebar draws only in `waiting_for_draw`, submit fires only in
`waiting_for_estimate`. -/
def MainExperimentStage.step (st : MainExperimentStage) (ev : Event) :
    MainExperimentStage :=
  match ev with
  | Event.space u =>
    if st.waiting_for_draw then st.draw_ball u else st
  | Event.submit e c =>
    if st.waiting_for_estimate then st.submit_response e c else st

/-- The `while self.current_trial < self.num_trials` event loop of
`MainExperimentStage.run`, consuming a list of events. -/
def MainExperimentStage.run (st : MainExperimentStage) :
    List Event → MainExperimentStage
  | [] => st
  | ev :: rest =>
    if st.current_trial < st.num_trials then (st.step ev).run rest else st

/-- The body of `MainExperimentStage.run`: the optional initial-estimate
screen (run only when `need_initial_estimate`, then the flag is cleared),
followed by the trial event loop. -/
def MainExperimentStage.runStage (st : MainExperimentStage)
    (initial_est : ℚ) (events : List Event) : MainExperimentStage :=
  let st1 :=
    if st.need_initial_estimate then
      { st.get_initial_estimate initial_est with
          need_initial_estimate := false }
    else st
  st1.run events

/-- The dictionary returned at the end of `MainExperimentStage.run`. -/
def MainExperimentStage.result (st : MainExperimentStage) : StageData :=
  { samples := st.samples,
    estimates := st.estimates,
    confidences := st.confidences,
    true_probability := st.urn.probability }

/-! ## Data collection and CSV export (`DataCollector`) -/

/-- One row of the flattened CSV written by `DataCollector.export`. -/
structure CsvRow where
  participant_id : String
  stage : String
  jar_color : String
  trial : ℕ
  sample_color : Color
  cumulative_black : ℕ
  cumulative_total : ℕ
  probability_estimate : Option ℚ
  confidence : Option ℚ
  true_probability : ℚ
deriving DecidableEq, Repr

/-- Number of black outcomes in a list of draws. -/
def countBlack (l : List Color) : ℕ :=
  (l.filter (fun s => s = Color.black)).length

/-- The inner `for trial in range(len(stage_data['samples']))` loop of
`DataCollector.export`: walks the samples keeping a running
`cumulative_black` counter (incremented before the row is written) and
emits one row per sample, `trial + 1` in the trial and cumulative-total
columns, estimate/confidence looked up by index when present. -/
def exportRowsGo (pid stage_num jar_color : String) (sd : StageData) :
    List Color → ℕ → ℕ → List CsvRow
  | [], _, _ => []
  | sample :: rest, trial, cumulative_black =>
    let cb := if sample = Color.black then cumulative_black + 1
              else cumulative_black
    { participant_id := pid,
      stage := stage_num,
      jar_color := jar_color,
      trial := trial + 1,
      sample_color := sample,
      cumulative_black := cb,
      cumulative_total := trial + 1,
      probability_estimate := sd.estimates.get? trial,
      confidence := sd.confidences.get? trial,
      true_probability := sd.true_probability } ::
    exportRowsGo pid stage_num jar_color sd rest (trial + 1) cb

/-- The CSV rows `DataCollector.export` writes for one stage. -/
def DataCollector.export_stage (pid stage_num jar_color : String)
    (sd : StageData) : List CsvRow :=
  exportRowsGo pid stage_num jar_color sd sd.samples 0 0

/-- The result of a training trial. -/
inductive TrainingResult where
  | correct
  | incorrect
deriving DecidableEq, Repr

/-- `DataCollector`: the aggregated per-participant experiment record. -/
structure DataCollector where
  participant_id : String
  training_trials : List (ℕ × TrainingResult)
  red_jar_stage1 : Option StageData
  green_jar_stage2 : Option StageData
  red_jar_stage3 : Option StageData
deriving DecidableEq, Repr

/-- `DataCollector.export`: the full CSV body — the per-stage blocks for
`red_jar_stage1`, `green_jar_stage2`, `red_jar_stage3` in that order,
each present only when its stage data was recorded. -/
def DataCollector.export_csv (dc : DataCollector) : List CsvRow :=
  (match dc.red_jar_stage1 with
   | some sd => DataCollector.export_stage dc.participant_id "stage1" "red" sd
   | none => []) ++
  (match dc.green_jar_stage2 with
   | some sd => DataCollector.export_stage dc.participant_id "stage2" "green" sd
   | none => []) ++
  (match dc.red_jar_stage3 with
   | some sd => DataCollector.export_stage dc.participant_id "stage3" "red" sd
   | none => [])

/-! ## Flask variant (`app.py`) -/

/-- Per-stage data kept by the Flask server for one participant. -/
structure WebStageData where
  samples : List Color
  estimates : List ℚ
  confidences : List ℚ
deriving DecidableEq, Repr

/-- `/api/submit_trial`: appends ball colour, estimate and confidence to
the stage's lists.  The handler performs no range validation on the
estimate or the confidence and has no failure path besides an unknown
participant id. -/
def submit_trial (sd : WebStageData) (ball_color : Color)
    (estimate confidence : ℚ) : WebStageData :=
  { samples := sd.samples ++ [ball_color],
    estimates := sd.estimates ++ [estimate],
    confidences := sd.confidences ++ [confidence] }

/-! ## Training trials (`TrainingTrial`) -/

/-- `available_probs = [i / 100 for i in range(0, 101, 10)]`: the fixed
11-value probability grid 0.0, 0.1, …, 1.0. -/
def available_probs : List ℚ :=
  (List.range 11).map (fun k => ((10 * k : ℕ) : ℚ) / 100)

/-- `random.sample(l, 2)` modelled by its two chosen positions: returns
the elements at two (distinct, in the real semantics) indices. -/
def sample2 (l : List ℚ) (i j : ℕ) : ℚ × ℚ :=
  (l.getD i 0, l.getD j 0)

/-- The fields of `TrainingTrial.__init__` relevant to urn selection. -/
structure TrainingTrial where
  urn_a : Urn
  urn_b : Urn
deriving DecidableEq, Repr

/-- `TrainingTrial.__init__` urn selection: `selected =
random.sample(available_probs, 2)`, modelled by the two sampled
positions `i`, `j` in the grid; `urn_a = Urn(selected[0])`,
`urn_b = Urn(selected[1])`. -/
def TrainingTrial.init (i j : ℕ) : TrainingTrial :=
  { urn_a := Urn.init (sample2 available_probs i j).1,
    urn_b := Urn.init (sample2 available_probs i j).2 }

/-! ## Experiment controller (`Experiment.run`) -/

/-- The random/user inputs consumed by the three main stages. -/
structure MainInputs where
  redProb : ℚ
  greenProb : ℚ
  redInitEst : ℚ
  redEvents : List Event
  greenInitEst : ℚ
  greenEvents : List Event
  stage3Events : List Event
deriving Repr

/-- Stage-3 construction in `Experiment.run`:
`MainExperimentStage(screen, audio, 'red', 30,
jar_probability=red_data['true_probability'], previous_data=red_data)`. -/
def Experiment.red_stage3 (red_data : StageData) : MainExperimentStage :=
  MainExperimentStage.init "red" 30 (some red_data.true_probability)
    (some red_data) 0

/-- The main-experiment portion of `Experiment.run`: stage 1 (red, 40
trials, fresh random probability), stage 2 (green, 30 trials, fresh
random probability), stage 3 (red, 30, resumed from stage 1's data). -/
def Experiment.mainStages (inp : MainInputs) :
    StageData × StageData × StageData :=
  let red_stage1 := MainExperimentStage.init "red" 40 none none inp.redProb
  let red_data := (red_stage1.runStage inp.redInitEst inp.redEvents).result
  let green_stage :=
    MainExperimentStage.init "green" 30 none none inp.greenProb
  let green_data :=
    (green_stage.runStage inp.greenInitEst inp.greenEvents).result
  let red_stage3 := Experiment.red_stage3 red_data
  let red_data_continued := (red_stage3.runStage 0 inp.stage3Events).result
  (red_data, green_data, red_data_continued)

/-- What the participant does on the consent screen. -/
inductive ConsentChoice where
  | agree
  | decline
  | quit
deriving DecidableEq, Repr

/-- `ConsentScreen.run`: `True` on the agree button, `False` on decline
or on closing the window. -/
def ConsentScreen.run : ConsentChoice → Bool
  | ConsentChoice.agree => true
  | ConsentChoice.decline => false
  | ConsentChoice.quit => false

/-- All inputs of a full session. -/
structure ExperimentInputs where
  choice : ConsentChoice
  trainingResults : List TrainingResult
  main : MainInputs
deriving Repr

/-- Outcome of `Experiment.run`: either the early return after declined
consent (no phases run, nothing collected, nothing exported), or a
completed session whose collected record is exported. -/
inductive RunOutcome where
  | declinedConsent
  | completed (dc : DataCollector)
deriving Repr

/-- `Experiment.run`: consent first (`if not consent_screen.run():
return`), then 10 training trials, then the three main stages, then
export.  Training results come from the explicit supply in the inputs. -/
def Experiment.run (pid : String) (inp : ExperimentInputs) : RunOutcome :=
  if ConsentScreen.run inp.choice = false then RunOutcome.declinedConsent
  else
    let training := (List.range 10).map
      (fun i => (i + 1, inp.trainingResults.getD i TrainingResult.incorrect))
    let staged := Experiment.mainStages inp.main
    RunOutcome.completed
      { participant_id := pid,
        training_trials := training,
        red_jar_stage1 := some staged.1,
        green_jar_stage2 := some staged.2.1,
        red_jar_stage3 := some staged.2.2 }

/-! ## Reference-level model of list aliasing

`MainExperimentStage.__init__` with `previous_data` stores the *same*
Python list objects (`self.samples = previous_data['samples']`, …), not
copies.  To reason about this frame effect we give a second, heap-based
embedding of the same lines: list objects live in a store and stage
objects / the collector's stored dictionaries hold references into it. -/

/-- A reference into the store of list objects. -/
abbrev Ref := ℕ

/-- The store: colour-list cells (`samples`) and rational-list cells
(`estimates`, `confidences`). -/
structure Heap where
  colorCells : List (List Color)
  ratCells : List (List ℚ)
deriving DecidableEq, Repr

/-- The list object a colour-cell reference points to. -/
def Heap.colors (h : Heap) (r : Ref) : List Color :=
  h.colorCells.getD r []

/-- The list object a rational-cell reference points to. -/
def Heap.rats (h : Heap) (r : Ref) : List ℚ :=
  h.ratCells.getD r []

/-- `list.append` on a colour cell: in-place extension of the object all
holders of the reference observe. -/
def Heap.appendColor (h : Heap) (r : Ref) (c : Color) : Heap :=
  { h with colorCells := h.colorCells.set r (h.colors r ++ [c]) }

/-- `list.append` on a rational cell. -/
def Heap.appendRat (h : Heap) (r : Ref) (q : ℚ) : Heap :=
  { h with ratCells := h.ratCells.set r (h.rats r ++ [q]) }

/-- The references a stage object (or a stage dictionary stored in the
collector) holds to its three lists. -/
structure StageRefs where
  samplesRef : Ref
  estimatesRef : Ref
  confidencesRef : Ref
deriving DecidableEq, Repr

/-- `MainExperimentStage.__init__` with `previous_data`, at reference
level: `self.samples = previous_data['samples']` etc. copy the
references, not the lists. -/
def stageRefsFromPreviousData (previous_data : StageRefs) : StageRefs :=
  previous_data

/-- `_draw_ball` at reference level: append the drawn colour to the list
object the stage's `samples` reference points to. -/
def drawBallRef (h : Heap) (st : StageRefs) (c : Color) : Heap :=
  h.appendColor st.samplesRef c

/-- `_submit_response` (valid inputs) at reference level: append the
estimate and the confidence to the referenced list objects. -/
def submitResponseRef (h : Heap) (st : StageRefs) (e c : ℚ) : Heap :=
  (h.appendRat st.estimatesRef e).appendRat st.confidencesRef c

/-! ## Helper lemmas -/

/-- Characterisation of `_submit_response`: the two input-box checks
combine into a single range condition. -/
theorem submit_response_spec (st : MainExperimentStage) (e c : ℚ) :
    st.submit_response e c =
      if 0 ≤ e ∧ e ≤ 100 ∧ 0 ≤ c ∧ c ≤ 10 then
        { st with
            estimates := st.estimates ++ [e],
            confidences := st.confidences ++ [c],
            current_trial := st.current_trial + 1,
            waiting_for_estimate := false,
            waiting_for_draw := true }
      else st := by
  by_cases he0 : (0:ℚ) ≤ e <;> by_cases he1 : e ≤ 100 <;>
    by_cases hc0 : (0:ℚ) ≤ c <;> by_cases hc1 : c ≤ 10 <;>
    simp [MainExperimentStage.submit_response, get_value, he0, he1, hc0, hc1]

/-- `step` never changes the urn. -/
theorem step_urn (st : MainExperimentStage) (ev : Event) :
    (st.step ev).urn = st.urn := by
  cases ev with
  | space u =>
    by_cases h : st.waiting_for_draw <;>
      simp [MainExperimentStage.step, MainExperimentStage.draw_ball, h]
  | submit e c =>
    by_cases h : st.waiting_for_estimate
    · simp only [MainExperimentStage.step, h, if_true, submit_response_spec]
      split <;> rfl
    · simp [MainExperimentStage.step, h]

/-- `step` never changes `num_trials`. -/
theorem step_num_trials (st : MainExperimentStage) (ev : Event) :
    (st.step ev).num_trials = st.num_trials := by
  cases ev with
  | space u =>
    by_cases h : st.waiting_for_draw <;>
      simp [MainExperimentStage.step, MainExperimentStage.draw_ball, h]
  | submit e c =>
    by_cases h : st.waiting_for_estimate
    · simp only [MainExperimentStage.step, h, if_true, submit_response_spec]
      split <;> rfl
    · simp [MainExperimentStage.step, h]

/-- `step` only ever appends to the sample history. -/
theorem step_samples (st : MainExperimentStage) (ev : Event) :
    ∃ t, (st.step ev).samples = st.samples ++ t := by
  cases ev with
  | space u =>
    by_cases h : st.waiting_for_draw
    · exact ⟨[st.urn.draw_ball u],
        by simp [MainExperimentStage.step, MainExperimentStage.draw_ball, h]⟩
    · exact ⟨[], by simp [MainExperimentStage.step, h]⟩
  | submit e c =>
    by_cases h : st.waiting_for_estimate
    · refine ⟨[], ?_⟩
      simp only [MainExperimentStage.step, h, if_true, submit_response_spec]
      split <;> simp
    · exact ⟨[], by simp [MainExperimentStage.step, h]⟩

/-- A stage whose `current_trial` already reached `num_trials` ignores
every event: the run loop exits at once. -/
theorem run_eq_of_done (st : MainExperimentStage) (evs : List Event)
    (h : st.num_trials ≤ st.current_trial) : st.run evs = st := by
  cases evs with
  | nil => rfl
  | cons ev rest =>
    simp [MainExperimentStage.run, Nat.not_lt.mpr h]

/-- The run loop never changes the urn. -/
theorem run_urn (evs : List Event) :
    ∀ st : MainExperimentStage, (st.run evs).urn = st.urn := by
  induction evs with
  | nil => intro st; rfl
  | cons ev rest ih =>
    intro st
    by_cases h : st.current_trial < st.num_trials
    · simp only [MainExperimentStage.run, h, if_true]
      rw [ih, step_urn]
    · simp [MainExperimentStage.run, h]

/-- The run loop only ever appends to the sample history. -/
theorem run_samples (evs : List Event) :
    ∀ st : MainExperimentStage, ∃ t, (st.run evs).samples = st.samples ++ t := by
  induction evs with
  | nil => intro st; exact ⟨[], by simp [MainExperimentStage.run]⟩
  | cons ev rest ih =>
    intro st
    by_cases h : st.current_trial < st.num_trials
    · obtain ⟨t, ht⟩ := ih (st.step ev)
      obtain ⟨t0, ht0⟩ := step_samples st ev
      refine ⟨t0 ++ t, ?_⟩
      simp only [MainExperimentStage.run, h, if_true]
      rw [ht, ht0, List.append_assoc]
    · exact ⟨[], by simp [MainExperimentStage.run, h]⟩

/-- `_get_initial_estimate` does not change the urn. -/
theorem get_initial_estimate_urn (st : MainExperimentStage) (e : ℚ) :
    (st.get_initial_estimate e).urn = st.urn := by
  unfold MainExperimentStage.get_initial_estimate
  split <;> rfl

/-- `get_initial_estimate` and clearing the flag do not change the urn. -/
theorem runStage_urn (st : MainExperimentStage) (e0 : ℚ)
    (evs : List Event) : (st.runStage e0 evs).urn = st.urn := by
  unfold MainExperimentStage.runStage
  by_cases h : st.need_initial_estimate
  · rw [if_pos h, run_urn]
    exact get_initial_estimate_urn st e0
  · rw [if_neg h]
    exact run_urn evs st

/-- The estimate-count invariant of a stage after its initial estimate:
the estimates list always holds one more entry than the number of
completed trials, and its first entry never changes. -/
theorem run_estimates_invariant (evs : List Event) :
    ∀ st : MainExperimentStage,
      st.estimates.length = st.current_trial + 1 →
      (st.run evs).estimates.length = (st.run evs).current_trial + 1 ∧
      (st.run evs).estimates.head? = st.estimates.head? := by
  induction evs with
  | nil => intro st h; exact ⟨h, rfl⟩
  | cons ev rest ih =>
    intro st h
    by_cases hlt : st.current_trial < st.num_trials
    · simp only [MainExperimentStage.run, hlt, if_true]
      have hstep : (st.step ev).estimates.length = (st.step ev).current_trial + 1 ∧
          (st.step ev).estimates.head? = st.estimates.head? := by
        cases ev with
        | space u =>
          by_cases hw : st.waiting_for_draw <;>
            simp [MainExperimentStage.step, MainExperimentStage.draw_ball, hw, h]
        | submit e c =>
          by_cases hw : st.waiting_for_estimate
          · simp only [MainExperimentStage.step, hw, if_true,
              submit_response_spec]
            split
            · constructor
              · simp [h]
              · have : st.estimates ≠ [] := by
                  intro hnil
                  rw [hnil] at h
                  simp at h
                cases hst : st.estimates with
                | nil => exact absurd hst this
                | cons a t => simp [hst]
            · exact ⟨h, rfl⟩
          · simp [MainExperimentStage.step, hw, h]
      obtain ⟨h1, h2⟩ := ih (st.step ev) hstep.1
      exact ⟨h1, h2.trans hstep.2⟩
    · simp only [MainExperimentStage.run, hlt, if_false]
      exact ⟨h, by simp⟩

/-- Length of one stage's CSV block: one row per sample. -/
theorem exportRowsGo_length (pid sn jc : String) (sd : StageData) :
    ∀ (l : List Color) (t cb : ℕ),
      (exportRowsGo pid sn jc sd l t cb).length = l.length := by
  intro l
  induction l with
  | nil => intro t cb; rfl
  | cons a rest ih =>
    intro t cb
    simp [exportRowsGo, ih]

/-- Reduction of a stage block lookup past its first row. -/
theorem exportRowsGo_get_succ (pid sn jc : String) (sd : StageData)
    (a : Color) (rest : List Color) (t cb n : ℕ) :
    (exportRowsGo pid sn jc sd (a :: rest) t cb).get? (n + 1)
      = (exportRowsGo pid sn jc sd rest (t + 1)
          (if a = Color.black then cb + 1 else cb)).get? n := by
  simp [exportRowsGo]

/-- Splitting the black count of a one-longer sample list. -/
theorem countBlack_take_succ (a : Color) (rest : List Color) (n : ℕ) :
    countBlack ((a :: rest).take (n + 1 + 1))
      = (if a = Color.black then 1 else 0) + countBlack (rest.take (n + 1)) := by
  have htake : (a :: rest).take (n + 1 + 1) = a :: rest.take (n + 1) :=
    List.take_succ_cons ..
  rw [htake]
  by_cases ha : a = Color.black
  · simp [countBlack, ha]
    omega
  · simp [countBlack, ha]

/-- The row at position `i` of one stage's CSV block: its cumulative
black count is the base counter plus the black outcomes among the first
`i + 1` samples, its cumulative total is the 1-based trial index, and its
sample column is the `i`-th sample. -/
theorem exportRowsGo_get (pid sn jc : String) (sd : StageData) :
    ∀ (l : List Color) (t cb i : ℕ), i < l.length →
      ((exportRowsGo pid sn jc sd l t cb).get? i).map CsvRow.cumulative_black
          = some (cb + countBlack (l.take (i + 1))) ∧
      ((exportRowsGo pid sn jc sd l t cb).get? i).map CsvRow.cumulative_total
          = some (t + i + 1) ∧
      ((exportRowsGo pid sn jc sd l t cb).get? i).map CsvRow.sample_color
          = l.get? i := by
  intro l
  induction l with
  | nil => intro t cb i hi; simp at hi
  | cons a rest ih =>
    intro t cb i hi
    cases i with
    | zero =>
      by_cases ha : a = Color.black <;>
        simp [exportRowsGo, countBlack, ha]
    | succ n =>
      have hn : n < rest.length := by simpa using hi
      obtain ⟨h1, h2, h3⟩ :=
        ih (t + 1) (if a = Color.black then cb + 1 else cb) n hn
      refine ⟨?_, ?_, ?_⟩
      · rw [exportRowsGo_get_succ, h1, countBlack_take_succ]
        by_cases ha : a = Color.black <;>
          simp only [ha, if_true, if_false, Option.some.injEq] <;> omega
      · rw [exportRowsGo_get_succ, h2]
        simp only [Option.some.injEq]
        omega
      · rw [exportRowsGo_get_succ, h3]
        simp

/-- `getD` after `set` at the same, in-bounds index. -/
theorem getD_set_self {α : Type} (l : List α) (i : ℕ) (v d : α)
    (h : i < l.length) : (l.set i v).getD i d = v := by
  induction l generalizing i with
  | nil => simp at h
  | cons a t ih =>
    cases i with
    | zero => rfl
    | succ n =>
      have : n < t.length := by simpa using h
      simpa [List.set, List.getD] using ih n this

/-- `getD` after `set` at a different index. -/
theorem getD_set_ne {α : Type} (l : List α) (i j : ℕ) (v d : α)
    (hne : i ≠ j) : (l.set j v).getD i d = l.getD i d := by
  induction l generalizing i j with
  | nil => simp [List.set]
  | cons a t ih =>
    cases j with
    | zero =>
      cases i with
      | zero => exact absurd rfl hne
      | succ m => rfl
    | succ n =>
      cases i with
      | zero => rfl
      | succ m =>
        have : m ≠ n := fun hh => hne (by rw [hh])
        simpa [List.set, List.getD] using ih m n this

/-- Appending an element never yields the same list. -/
theorem append_singleton_ne {α : Type} (l : List α) (x : α) :
    l ++ [x] ≠ l := by
  intro h
  have := congrArg List.length h
  simp at this

/-- The 11 grid probabilities are pairwise distinct. -/
theorem available_probs_nodup : available_probs.Nodup := by
  unfold available_probs
  refine List.Nodup.map ?_ (List.nodup_range 11)
  intro a b hab
  simp only at hab
  have h100 : ((10 * a : ℕ) : ℚ) = ((10 * b : ℕ) : ℚ) := by
    have h := congrArg (fun x : ℚ => x * 100) hab
    simp only at h
    rwa [div_mul_cancel₀ _ (by norm_num : (100:ℚ) ≠ 0),
      div_mul_cancel₀ _ (by norm_num : (100:ℚ) ≠ 0)] at h
  have h10 : (10 : ℕ) * a = 10 * b := by exact_mod_cast h100
  omega

/-- `st.result.true_probability` is the stage urn's probability. -/
theorem result_true_probability (st : MainExperimentStage) :
    st.result.true_probability = st.urn.probability := rfl

/-- Stage 3's urn carries exactly the resumed data's probability. -/
theorem red_stage3_urn_probability (rd : StageData) :
    (Experiment.red_stage3 rd).urn.probability = rd.true_probability := rfl

/-! ## Claims -/

/-- **C1.**  The claim says the stage-3 return stage accepts 30 new
draw/response trials and completes when the combined record history
reaches 70.  The code diverges: `Experiment.run` constructs stage 3 with
`num_trials = 30` while `current_trial` is restored to the 40 records of
stage 1, so the `while current_trial < num_trials` loop exits at once —
stage 3 accepts zero new trials and completes immediately with the 40
inherited records. -/
theorem claim_C1_stage3_accepts_no_new_trials (prev : StageData)
    (h : prev.samples.length = 40) :
    (Experiment.red_stage3 prev).current_trial = 40 ∧
    (Experiment.red_stage3 prev).num_trials = 30 ∧
    ∀ evs : List Event,
      (Experiment.red_stage3 prev).run evs = Experiment.red_stage3 prev ∧
      ((Experiment.red_stage3 prev).run evs).samples.length = 40 := by
  have hct : (Experiment.red_stage3 prev).current_trial
      = prev.samples.length := rfl
  refine ⟨by rw [hct, h], rfl, ?_⟩
  intro evs
  have hdone : (Experiment.red_stage3 prev).num_trials
      ≤ (Experiment.red_stage3 prev).current_trial := by
    rw [hct, h]
    show 30 ≤ 40
    norm_num
  have hrun := run_eq_of_done (Experiment.red_stage3 prev) evs hdone
  refine ⟨hrun, ?_⟩
  rw [hrun]
  show prev.samples.length = 40
  exact h

/-- A completed stage-1 data record with 40 trials, used as the concrete
failing input. -/
def stage1data40 : StageData :=
  { samples := List.replicate 40 Color.black,
    estimates := List.replicate 40 (50 : ℚ),
    confidences := List.replicate 40 (5 : ℚ),
    true_probability := 7/10 }

/-- **C1, witness.**  At a concrete completed stage 1 with 40 records,
the resumed stage 3 ignores all further events and still holds exactly
40 records. -/
theorem claim_C1_witness :
    stage1data40.samples.length = 40 ∧
    ((Experiment.red_stage3 stage1data40).run
        [Event.space 0, Event.submit 50 5]
      = Experiment.red_stage3 stage1data40 ∧
    ((Experiment.red_stage3 stage1data40).run
        [Event.space 0, Event.submit 50 5]).samples.length = 40) :=
  ⟨by simp [stage1data40],
   (claim_C1_stage3_accepts_no_new_trials stage1data40
      (by simp [stage1data40])).2.2 [Event.space 0, Event.submit 50 5]⟩

/-- **C2.**  A stage built by resumption starts with exactly the previous
stage's sample history, and after any further events its first `k1`
samples still equal the previous stage's samples: the run loop only ever
appends, never truncates or rewrites. -/
theorem claim_C2_resumption_preserves_history (jc : String) (n : ℕ)
    (jp : Option ℚ) (rp : ℚ) (prev : StageData) (e0 : ℚ)
    (evs : List Event) :
    (MainExperimentStage.init jc n jp (some prev) rp).samples
        = prev.samples ∧
    ((MainExperimentStage.init jc n jp (some prev) rp).runStage e0
        evs).samples.take prev.samples.length = prev.samples := by
  refine ⟨rfl, ?_⟩
  unfold MainExperimentStage.runStage
  rw [if_neg (by simp [MainExperimentStage.init])]
  obtain ⟨t, ht⟩ :=
    run_samples evs (MainExperimentStage.init jc n jp (some prev) rp)
  rw [ht]
  show (prev.samples ++ t).take prev.samples.length = prev.samples
  exact List.take_left prev.samples t

/-- **C4, counterexample.**  The claim says construction of an `Urn` with
a probability outside `[0,1]` fails with an InvalidProbability error.
The constructor has no validation: at `p = 3/2` it succeeds and returns
an urn with probability `3/2` and 150 black balls. -/
theorem claim_C4_counterexample :
    Urn.initE (3/2) = Except.ok (Urn.init (3/2)) ∧
    (Urn.init (3/2)).probability = 3/2 ∧
    (Urn.init (3/2)).black_balls = 150 ∧
    ¬ ((3:ℚ)/2 ≤ 1) := by
  refine ⟨rfl, rfl, ?_, by norm_num⟩
  show pyInt (3/2 * 100) = 150
  norm_num [pyInt]

/-- **C4, amended.**  Urn construction never fails for any probability —
no validation is performed and out-of-range probabilities are stored
as-is — and a draw always yields black or white, with no failure case. -/
theorem claim_C4_amended_no_validation (p : ℚ) :
    Urn.initE p = Except.ok (Urn.init p) ∧
    (Urn.init p).probability = p ∧
    ∀ u : ℚ, (Urn.init p).draw_ball u = Color.black ∨
      (Urn.init p).draw_ball u = Color.white := by
  refine ⟨rfl, rfl, ?_⟩
  intro u
  unfold Urn.draw_ball
  split
  · exact Or.inl rfl
  · exact Or.inr rfl

/-- **C5, counterexample.**  The claim says any out-of-range estimate is
rejected with a ValidationError, leaving the record history unchanged.
The web endpoint `/api/submit_trial` performs no validation: submitting
estimate `100.01` succeeds and appends it to the history. -/
theorem claim_C5_counterexample :
    (submit_trial { samples := [], estimates := [], confidences := [] }
        Color.black (10001/100) 5).estimates = [10001/100] ∧
    ¬ ((10001:ℚ)/100 ≤ 100) := by
  exact ⟨rfl, by norm_num⟩

/-- **C5, amended.**  The desktop `_submit_response` accepts exactly
estimates in `[0,100]` and confidences in `[0,10]` (boundaries
included), appending exactly one estimate and one confidence and
advancing the trial counter; on any out-of-range input it leaves the
stage unchanged — silently, with no ValidationError raised.  The web
`submit_trial` appends the estimate without any validation. -/
theorem claim_C5_amended_range_behaviour (st : MainExperimentStage)
    (e c : ℚ) :
    (st.submit_response e c =
      if 0 ≤ e ∧ e ≤ 100 ∧ 0 ≤ c ∧ c ≤ 10 then
        { st with
            estimates := st.estimates ++ [e],
            confidences := st.confidences ++ [c],
            current_trial := st.current_trial + 1,
            waiting_for_estimate := false,
            waiting_for_draw := true }
      else st) ∧
    ∀ (sd : WebStageData) (b : Color),
      (submit_trial sd b e c).estimates = sd.estimates ++ [e] :=
  ⟨submit_response_spec st e c, fun _ _ => rfl⟩

/-- A fresh red stage, as stage 1 of the main experiment builds it. -/
def freshRedStage : MainExperimentStage :=
  MainExperimentStage.init "red" 40 none none (7/10)

/-- **C3, counterexample.**  The claim says the initial estimate is
stored separately from the per-trial estimates, so after `n` submitted
trials the per-trial estimate sequence has exactly `n` entries and the
initial estimate is not among them.  In the code
`_get_initial_estimate` appends the initial estimate to the same
`estimates` list: after initial estimate 50 and one submitted trial
(estimate 60), the list is `[50, 60]` — two entries for one trial, the
initial estimate among them. -/
theorem claim_C3_counterexample :
    (freshRedStage.runStage 50
        [Event.space 1, Event.submit 60 7]).current_trial = 1 ∧
    (freshRedStage.runStage 50
        [Event.space 1, Event.submit 60 7]).estimates = [50, 60] ∧
    ¬ ((freshRedStage.runStage 50
          [Event.space 1, Event.submit 60 7]).estimates.length = 1 ∧
       (50:ℚ) ∉ (freshRedStage.runStage 50
          [Event.space 1, Event.submit 60 7]).estimates) := by
  refine ⟨by decide, by decide, ?_⟩
  intro hcl
  have : ((freshRedStage.runStage 50
      [Event.space 1, Event.submit 60 7]).estimates).length = 2 := by decide
  rw [hcl.1] at this
  simp at this

/-- **C3, amended.**  The initial estimate is appended to the same
estimates list as the per-trial estimates: after a fresh stage records
an in-range initial estimate and processes any events, the estimates
list always holds exactly one more entry than the number of completed
trials, and its first entry is the initial estimate. -/
theorem claim_C3_amended_initial_estimate_shares_list (jc : String)
    (n : ℕ) (jp : Option ℚ) (rp e0 : ℚ) (evs : List Event)
    (h0 : 0 ≤ e0) (h1 : e0 ≤ 100) :
    ((MainExperimentStage.init jc n jp none rp).runStage e0
        evs).estimates.length
      = ((MainExperimentStage.init jc n jp none rp).runStage e0
        evs).current_trial + 1 ∧
    ((MainExperimentStage.init jc n jp none rp).runStage e0
        evs).estimates.head? = some e0 := by
  unfold MainExperimentStage.runStage
  rw [if_pos (by simp [MainExperimentStage.init])]
  have hup :
      ({ (MainExperimentStage.init jc n jp none rp).get_initial_estimate e0
          with need_initial_estimate := false }
        : MainExperimentStage).estimates = [e0] ∧
      ({ (MainExperimentStage.init jc n jp none rp).get_initial_estimate e0
          with need_initial_estimate := false }
        : MainExperimentStage).current_trial = 0 := by
    constructor
    · show ((MainExperimentStage.init jc n jp none rp).get_initial_estimate
          e0).estimates = [e0]
      simp [MainExperimentStage.get_initial_estimate, get_value, h0, h1,
        MainExperimentStage.init]
    · show ((MainExperimentStage.init jc n jp none rp).get_initial_estimate
          e0).current_trial = 0
      simp [MainExperimentStage.get_initial_estimate, get_value, h0, h1,
        MainExperimentStage.init]
  have hinv := run_estimates_invariant evs
    ({ (MainExperimentStage.init jc n jp none rp).get_initial_estimate e0
        with need_initial_estimate := false })
    (by rw [hup.1, hup.2]; rfl)
  refine ⟨hinv.1, ?_⟩
  rw [hinv.2, hup.1]
  rfl

/-- **C3, witness.**  The amended statement instantiated at a fresh
red stage with initial estimate 50 and no further events. -/
theorem claim_C3_witness :
    (0:ℚ) ≤ 50 ∧ (50:ℚ) ≤ 100 ∧
    (((MainExperimentStage.init "red" 40 none none (7/10)).runStage 50
        []).estimates.length
      = ((MainExperimentStage.init "red" 40 none none (7/10)).runStage 50
        []).current_trial + 1 ∧
    ((MainExperimentStage.init "red" 40 none none (7/10)).runStage 50
        []).estimates.head? = some 50) :=
  ⟨by norm_num, by norm_num,
   claim_C3_amended_initial_estimate_shares_list "red" 40 none (7/10) 50 []
     (by norm_num) (by norm_num)⟩

/-- **C6.**  One stage's CSV block has exactly one row per sample, in
draw order; the row at 1-based trial index `i + 1` carries the number of
black outcomes among the stage's first `i + 1` samples as
`cumulative_black`, the trial index itself as `cumulative_total`, and
the `i`-th sample in its outcome column. -/
theorem claim_C6_csv_cumulative_counts (pid sn jc : String)
    (sd : StageData) (i : ℕ) (h : i < sd.samples.length) :
    (DataCollector.export_stage pid sn jc sd).length
        = sd.samples.length ∧
    ((DataCollector.export_stage pid sn jc sd).get? i).map
        CsvRow.cumulative_black
      = some (countBlack (sd.samples.take (i + 1))) ∧
    ((DataCollector.export_stage pid sn jc sd).get? i).map
        CsvRow.cumulative_total = some (i + 1) ∧
    ((DataCollector.export_stage pid sn jc sd).get? i).map
        CsvRow.sample_color = sd.samples.get? i := by
  have hg := exportRowsGo_get pid sn jc sd sd.samples 0 0 i h
  refine ⟨exportRowsGo_length pid sn jc sd sd.samples 0 0, ?_, ?_, hg.2.2⟩
  · simpa using hg.1
  · simpa using hg.2.1

/-- A small concrete stage record for the CSV witness. -/
def csvSampleData : StageData :=
  { samples := [Color.black, Color.white, Color.black],
    estimates := [10, 20, 30],
    confidences := [1, 2, 3],
    true_probability := 7/10 }

/-- **C6, witness.**  The CSV block property at a concrete three-sample
stage and row index 2. -/
theorem claim_C6_witness :
    2 < csvSampleData.samples.length ∧
    ((DataCollector.export_stage "P1" "stage1" "red" csvSampleData).length
        = csvSampleData.samples.length ∧
    ((DataCollector.export_stage "P1" "stage1" "red"
        csvSampleData).get? 2).map CsvRow.cumulative_black
      = some (countBlack (csvSampleData.samples.take (2 + 1))) ∧
    ((DataCollector.export_stage "P1" "stage1" "red"
        csvSampleData).get? 2).map CsvRow.cumulative_total = some (2 + 1) ∧
    ((DataCollector.export_stage "P1" "stage1" "red"
        csvSampleData).get? 2).map CsvRow.sample_color
      = csvSampleData.samples.get? 2) :=
  ⟨by simp [csvSampleData],
   claim_C6_csv_cumulative_counts "P1" "stage1" "red" csvSampleData 2
     (by simp [csvSampleData])⟩

/-- **C7.**  In every completed run of the main stages, the stage-3
return stage's `true_probability` equals stage 1's: the same hidden jar
probability is restored when the red jar is revisited. -/
theorem claim_C7_stage3_same_probability (inp : MainInputs) :
    (Experiment.mainStages inp).2.2.true_probability
      = (Experiment.mainStages inp).1.true_probability := by
  show ((Experiment.red_stage3
      ((MainExperimentStage.init "red" 40 none none inp.redProb).runStage
        inp.redInitEst inp.redEvents).result).runStage 0
      inp.stage3Events).result.true_probability
    = ((MainExperimentStage.init "red" 40 none none inp.redProb).runStage
        inp.redInitEst inp.redEvents).result.true_probability
  rw [result_true_probability, runStage_urn, red_stage3_urn_probability]

/-- **C8.**  Declining consent terminates the session at the consent
phase: `Experiment.run` returns the declined-consent outcome, which
carries no training results, no stage data and no export — and is a
distinct outcome, not an error of the completed path. -/
theorem claim_C8_decline_consent_terminates (pid : String)
    (inp : ExperimentInputs) :
    Experiment.run pid { inp with choice := ConsentChoice.decline }
        = RunOutcome.declinedConsent ∧
    ∀ dc : DataCollector,
      Experiment.run pid { inp with choice := ConsentChoice.decline }
        ≠ RunOutcome.completed dc := by
  constructor
  · rfl
  · intro dc hcontra
    simp [Experiment.run, ConsentScreen.run] at hcontra

/-- **C9.**  Training-trial urn selection draws two elements at distinct
positions of the fixed 11-value grid; since the grid values are pairwise
distinct, the two candidate probabilities of one trial are always
distinct, and both lie on the grid. -/
theorem claim_C9_training_urns_distinct (i j : ℕ)
    (hi : i < 11) (hj : j < 11) (hij : i ≠ j) :
    (TrainingTrial.init i j).urn_a.probability
        ≠ (TrainingTrial.init i j).urn_b.probability ∧
    (TrainingTrial.init i j).urn_a.probability ∈ available_probs ∧
    (TrainingTrial.init i j).urn_b.probability ∈ available_probs := by
  have hlen : available_probs.length = 11 := by simp [available_probs]
  have hi' : i < available_probs.length := by rw [hlen]; exact hi
  have hj' : j < available_probs.length := by rw [hlen]; exact hj
  have ha : (TrainingTrial.init i j).urn_a.probability
      = available_probs.get ⟨i, hi'⟩ := by
    show available_probs.getD i 0 = _
    rw [List.getD_eq_getElem available_probs 0 hi', List.get_eq_getElem]
  have hb : (TrainingTrial.init i j).urn_b.probability
      = available_probs.get ⟨j, hj'⟩ := by
    show available_probs.getD j 0 = _
    rw [List.getD_eq_getElem available_probs 0 hj', List.get_eq_getElem]
  refine ⟨?_, ?_, ?_⟩
  · rw [ha, hb]
    intro hcontra
    have hfin : (⟨i, hi'⟩ : Fin available_probs.length) = ⟨j, hj'⟩ :=
      (List.Nodup.get_inj_iff available_probs_nodup).mp hcontra
    exact hij (congrArg Fin.val hfin)
  · rw [ha]
    exact List.get_mem available_probs i hi'
  · rw [hb]
    exact List.get_mem available_probs j hj'

/-- **C9, witness.**  The distinctness of the two training urns at
sampled positions 0 and 1 of the grid. -/
theorem claim_C9_witness :
    (0:ℕ) < 11 ∧ (1:ℕ) < 11 ∧ (0:ℕ) ≠ 1 ∧
    ((TrainingTrial.init 0 1).urn_a.probability
        ≠ (TrainingTrial.init 0 1).urn_b.probability ∧
    (TrainingTrial.init 0 1).urn_a.probability ∈ available_probs ∧
    (TrainingTrial.init 0 1).urn_b.probability ∈ available_probs) :=
  ⟨by norm_num, by norm_num, by norm_num,
   claim_C9_training_urns_distinct 0 1 (by norm_num) (by norm_num)
     (by norm_num)⟩

/-- **C10.**  Resuming a stage copies the list references, not the
lists: a stage built from `previous_data` holds the very same
references, and a draw (or response) appended through the resumed stage
extends — and therefore changes — the list objects that the collector's
stored stage-1 record still points to. -/
theorem claim_C10_resumed_stage_aliases_previous (h : Heap)
    (stage1_refs : StageRefs) (c : Color) (e q : ℚ)
    (hs : stage1_refs.samplesRef < h.colorCells.length)
    (hest : stage1_refs.estimatesRef < h.ratCells.length)
    (hne : stage1_refs.estimatesRef ≠ stage1_refs.confidencesRef) :
    stageRefsFromPreviousData stage1_refs = stage1_refs ∧
    (drawBallRef h (stageRefsFromPreviousData stage1_refs) c).colors
        stage1_refs.samplesRef
      = h.colors stage1_refs.samplesRef ++ [c] ∧
    (drawBallRef h (stageRefsFromPreviousData stage1_refs) c).colors
        stage1_refs.samplesRef
      ≠ h.colors stage1_refs.samplesRef ∧
    (submitResponseRef h (stageRefsFromPreviousData stage1_refs) e q).rats
        stage1_refs.estimatesRef
      = h.rats stage1_refs.estimatesRef ++ [e] ∧
    (submitResponseRef h (stageRefsFromPreviousData stage1_refs) e q).rats
        stage1_refs.estimatesRef
      ≠ h.rats stage1_refs.estimatesRef := by
  have hdraw : (drawBallRef h (stageRefsFromPreviousData stage1_refs)
      c).colors stage1_refs.samplesRef
      = h.colors stage1_refs.samplesRef ++ [c] := by
    show ((h.colorCells.set stage1_refs.samplesRef
        (h.colors stage1_refs.samplesRef ++ [c])).getD
        stage1_refs.samplesRef []) = _
    exact getD_set_self _ _ _ _ hs
  have hsub : (submitResponseRef h (stageRefsFromPreviousData stage1_refs)
      e q).rats stage1_refs.estimatesRef
      = h.rats stage1_refs.estimatesRef ++ [e] := by
    show (((h.ratCells.set stage1_refs.estimatesRef
        (h.rats stage1_refs.estimatesRef ++ [e])).set
        stage1_refs.confidencesRef _).getD stage1_refs.estimatesRef [])
      = _
    rw [getD_set_ne _ _ _ _ _ hne]
    exact getD_set_self _ _ _ _ hest
  refine ⟨rfl, hdraw, ?_, hsub, ?_⟩
  · rw [hdraw]
    exact append_singleton_ne _ _
  · rw [hsub]
    exact append_singleton_ne _ _

/-- A two-cell heap for the aliasing witness. -/
def aliasHeap : Heap := { colorCells := [[]], ratCells := [[], []] }

/-- The stage-1 references into `aliasHeap`. -/
def aliasRefs : StageRefs :=
  { samplesRef := 0, estimatesRef := 0, confidencesRef := 1 }

/-- **C10, witness.**  The aliasing effect at a concrete heap: one draw
through the resumed stage changes the collector's stored stage-1 sample
list. -/
theorem claim_C10_witness :
    (aliasRefs.samplesRef < aliasHeap.colorCells.length ∧
     aliasRefs.estimatesRef < aliasHeap.ratCells.length ∧
     aliasRefs.estimatesRef ≠ aliasRefs.confidencesRef) ∧
    (stageRefsFromPreviousData aliasRefs = aliasRefs ∧
    (drawBallRef aliasHeap (stageRefsFromPreviousData aliasRefs)
        Color.black).colors aliasRefs.samplesRef
      = aliasHeap.colors aliasRefs.samplesRef ++ [Color.black] ∧
    (drawBallRef aliasHeap (stageRefsFromPreviousData aliasRefs)
        Color.black).colors aliasRefs.samplesRef
      ≠ aliasHeap.colors aliasRefs.samplesRef ∧
    (submitResponseRef aliasHeap (stageRefsFromPreviousData aliasRefs)
        50 5).rats aliasRefs.estimatesRef
      = aliasHeap.rats aliasRefs.estimatesRef ++ [50] ∧
    (submitResponseRef aliasHeap (stageRefsFromPreviousData aliasRefs)
        50 5).rats aliasRefs.estimatesRef
      ≠ aliasHeap.rats aliasRefs.estimatesRef) :=
  ⟨⟨by simp [aliasRefs, aliasHeap], by simp [aliasRefs, aliasHeap],
    by simp [aliasRefs]⟩,
   claim_C10_resumed_stage_aliases_previous aliasHeap aliasRefs
     Color.black 50 5 (by simp [aliasRefs, aliasHeap])
     (by simp [aliasRefs, aliasHeap]) (by simp [aliasRefs])⟩

end BayesianExperiment
